import Mathlib

/-! Formal model of the digital-kasir wallet ledger.

Shallow embedding of the database state and the money-movement handlers in
src/server/src/handlers/auth.ts, src/server/src/handlers/wallet.ts and the
coin handlers (exchangeCoinsToBalance, addCoinsToUser), together with the
drizzle schema in the server schema file.  Monetary amounts are modelled as
exact rationals (the schema stores them as numeric(15,2) fixed-point
decimals); coin counts as integers.  Each handler returns
Except String (result × DB): a thrown Error corresponds to .error with the
thrown message, and a database transaction that commits corresponds to .ok
carrying the new state.  Timestamp columns (created_at, updated_at) are not
modelled except where a value feeds back into the data (the Date.now()
component of a deposit payment reference).
-/

namespace Kasir

/-- Status enum shared by transactions, deposits, transfers and withdrawals
(the schema declares one pgEnum per table, all with the same four values). -/
inductive MStatus where
  | pending
  | completed
  | failed
  | cancelled
deriving DecidableEq

/-- deposit_method pgEnum. -/
inductive DepositMethod where
  | bank_transfer
  | e_wallet
  | virtual_account
deriving DecidableEq

/-- kyc_status pgEnum. -/
inductive KycStatus where
  | pending
  | verified
  | rejected
  | not_submitted
deriving DecidableEq

/-- A row of usersTable (fields the ledger handlers read or write). -/
structure User where
  id : Nat
  email : String
  kyc_status : KycStatus
  wallet_balance : Rat
  coins : Int
  is_blocked : Bool
deriving DecidableEq

/-- A row of productsTable. -/
structure Product where
  id : Nat
  price : Rat
  is_active : Bool
deriving DecidableEq

/-- A row of transactionsTable. -/
structure Transaction where
  id : Nat
  user_id : Nat
  product_id : Nat
  target_number : String
  amount : Rat
  coins_earned : Int
  status : MStatus
  provider_transaction_id : Option String
deriving DecidableEq

/-- A row of depositsTable.  The payment_reference column is plain text with
no unique constraint in the schema. -/
structure Deposit where
  id : Nat
  user_id : Nat
  amount : Rat
  method : DepositMethod
  status : MStatus
  payment_reference : String
deriving DecidableEq

/-- A row of transfersTable. -/
structure Transfer where
  id : Nat
  from_user_id : Nat
  to_user_id : Nat
  amount : Rat
  status : MStatus
deriving DecidableEq

/-- A row of withdrawalsTable. -/
structure Withdrawal where
  id : Nat
  user_id : Nat
  amount : Rat
  bank_name : String
  account_number : String
  account_name : String
  status : MStatus
deriving DecidableEq

/-- A row of coinExchangesTable. -/
structure CoinExchange where
  id : Nat
  user_id : Nat
  coins_used : Int
  balance_received : Rat
  exchange_rate : Rat
deriving DecidableEq

/-- The relational store: one list per table, plus the serial id counters. -/
structure DB where
  users : List User
  products : List Product
  transactions : List Transaction
  deposits : List Deposit
  transfers : List Transfer
  withdrawals : List Withdrawal
  coinExchanges : List CoinExchange
  nextTransactionId : Nat
  nextDepositId : Nat
  nextTransferId : Nat
  nextWithdrawalId : Nat
  nextCoinExchangeId : Nat
deriving DecidableEq

/-- select ... from users where id = userId, taking row [0]. -/
def findUser (db : DB) (userId : Nat) : Option User :=
  db.users.find? (fun u => u.id == userId)

/-- select ... from users where email = email, taking row [0]. -/
def findUserByEmail (db : DB) (email : String) : Option User :=
  db.users.find? (fun u => u.email == email)

/-- select ... from products where id = productId, taking row [0]. -/
def findProduct (db : DB) (productId : Nat) : Option Product :=
  db.products.find? (fun p => p.id == productId)

/-- update users set f(u) where id = userId. -/
def updateUser (db : DB) (userId : Nat) (f : User → User) : DB :=
  { db with users := db.users.map (fun u => if u.id == userId then f u else u) }

/-- JS Math.floor on an exact rational. -/
def jsFloor (q : Rat) : Int := Int.floor q

/-- createTransaction in src/server/src/handlers/auth.ts (lines 76-162). -/
def createTransaction (db : DB) (userId : Nat) (productId : Nat)
    (targetNumber : String) : Except String (Transaction × DB) :=
  match findUser db userId with
  | none => .error "User not found"
  | some user =>
    if user.is_blocked then .error "Account is blocked" else
    match findProduct db productId with
    | none => .error "Product not found"
    | some product =>
      if !product.is_active then .error "Product is not active" else
      let productPrice := product.price
      let userBalance := user.wallet_balance
      if userBalance < productPrice then .error "Insufficient wallet balance" else
      let coinsEarned : Int := jsFloor (productPrice / 100)
      let tx : Transaction :=
        { id := db.nextTransactionId
          user_id := userId
          product_id := productId
          target_number := targetNumber
          amount := productPrice
          coins_earned := coinsEarned
          status := .pending
          provider_transaction_id := none }
      let db1 : DB :=
        { db with
            transactions := db.transactions ++ [tx]
            nextTransactionId := db.nextTransactionId + 1 }
      let db2 := updateUser db1 userId
        (fun u => { u with wallet_balance := userBalance - productPrice })
      .ok (tx, db2)

/-- select ... from transactions where id = transactionId and user_id = userId,
returning null when no row matches: getTransactionById in auth.ts
(lines 195-229). -/
def getTransactionById (db : DB) (transactionId : Nat) (userId : Nat) :
    Option Transaction :=
  db.transactions.find? (fun t => t.id == transactionId && t.user_id == userId)

/-- The handler writes the raw status string into the enum column
(status as any); Postgres accepts exactly the four enum labels and rejects
anything else at write time. -/
def parseStatus (status : String) : Option MStatus :=
  if status == "pending" then some .pending
  else if status == "completed" then some .completed
  else if status == "failed" then some .failed
  else if status == "cancelled" then some .cancelled
  else none

/-- The handler only sets provider_transaction_id when the optional argument
is truthy (a present, non-empty string); otherwise the stored value stays. -/
def effectiveProviderId (providerTransactionId : Option String)
    (old : Option String) : Option String :=
  match providerTransactionId with
  | some p => if p == "" then old else some p
  | none => old

/-- The balance side effects of updateTransactionStatus, keyed on the raw
status string exactly as the handler is: completed awards coins_earned to
the owner, failed or cancelled refunds the transaction amount. -/
def applyTxSideEffects (db : DB) (updated : Transaction) (status : String) : DB :=
  let db2 : DB :=
    if status == "completed" then
      updateUser db updated.user_id
        (fun u => { u with coins := u.coins + updated.coins_earned })
    else db
  if status == "failed" || status == "cancelled" then
    updateUser db2 updated.user_id
      (fun u => { u with wallet_balance := u.wallet_balance + updated.amount })
  else db2

/-- updateTransactionStatus in auth.ts (lines 231-296).  The handler only
checks that the row exists; it never inspects the current status before
writing the new one and running the side effects. -/
def updateTransactionStatus (db : DB) (transactionId : Nat) (status : String)
    (providerTransactionId : Option String) : Except String (Transaction × DB) :=
  match db.transactions.find? (fun t => t.id == transactionId) with
  | none => .error "Transaction not found"
  | some existing =>
    match parseStatus status with
    | none => .error "invalid input value for enum transaction_status"
    | some st =>
      let newProviderId : Option String :=
        effectiveProviderId providerTransactionId existing.provider_transaction_id
      let updated : Transaction :=
        { existing with status := st, provider_transaction_id := newProviderId }
      let db1 : DB :=
        { db with
            transactions := db.transactions.map (fun t =>
              if t.id == transactionId then
                { t with status := st, provider_transaction_id := newProviderId }
              else t) }
      .ok (updated, applyTxSideEffects db1 updated status)

/-- createDeposit in src/server/src/handlers/wallet.ts (lines 31-67).
The now argument is the Date.now() millisecond timestamp read when the
handler runs; the payment reference is the template literal
PAY_userId_now. -/
def createDeposit (db : DB) (userId : Nat) (amount : Rat)
    (method : DepositMethod) (now : Nat) : Except String (Deposit × DB) :=
  match findUser db userId with
  | none => .error "User not found"
  | some _user =>
    let paymentReference := "PAY_" ++ toString userId ++ "_" ++ toString now
    let deposit : Deposit :=
      { id := db.nextDepositId
        user_id := userId
        amount := amount
        method := method
        status := .pending
        payment_reference := paymentReference }
    let db1 : DB :=
      { db with
          deposits := db.deposits ++ [deposit]
          nextDepositId := db.nextDepositId + 1 }
    .ok (deposit, db1)

/-- createTransfer in wallet.ts (lines 87-162). -/
def createTransfer (db : DB) (fromUserId : Nat) (toUserEmail : String)
    (amount : Rat) : Except String (Transfer × DB) :=
  match findUser db fromUserId with
  | none => .error "Sender not found"
  | some sender =>
    if sender.is_blocked then .error "Account is blocked" else
    if sender.kyc_status ≠ .verified then
      .error "KYC verification required for transfers" else
    if sender.wallet_balance < amount then .error "Insufficient balance" else
    match findUserByEmail db toUserEmail with
    | none => .error "Recipient not found"
    | some recipient =>
      if recipient.is_blocked then .error "Recipient account is blocked" else
      if fromUserId == recipient.id then .error "Cannot transfer to yourself" else
      let transfer : Transfer :=
        { id := db.nextTransferId
          from_user_id := fromUserId
          to_user_id := recipient.id
          amount := amount
          status := .pending }
      let db1 : DB :=
        { db with
            transfers := db.transfers ++ [transfer]
            nextTransferId := db.nextTransferId + 1 }
      .ok (transfer, db1)

/-- createWithdrawal in wallet.ts (lines 200-254). -/
def createWithdrawal (db : DB) (userId : Nat) (amount : Rat)
    (bankName accountNumber accountName : String) :
    Except String (Withdrawal × DB) :=
  match findUser db userId with
  | none => .error "User not found"
  | some user =>
    if user.is_blocked then .error "Account is blocked" else
    if user.kyc_status ≠ .verified then
      .error "KYC verification required for withdrawals" else
    if user.wallet_balance < amount then .error "Insufficient balance" else
    let withdrawal : Withdrawal :=
      { id := db.nextWithdrawalId
        user_id := userId
        amount := amount
        bank_name := bankName
        account_number := accountNumber
        account_name := accountName
        status := .pending }
    let db1 : DB :=
      { db with
          withdrawals := db.withdrawals ++ [withdrawal]
          nextWithdrawalId := db.nextWithdrawalId + 1 }
    .ok (withdrawal, db1)

/-- Status vocabulary mapping of processDepositCallback: success/completed
map to completed, failed to failed, everything else to cancelled. -/
def mapGatewayStatus (status : String) : MStatus :=
  if status == "success" || status == "completed" then .completed
  else if status == "failed" then .failed
  else .cancelled

/-- processDepositCallback in wallet.ts (lines 274-336).  The update of the
deposit row happens unconditionally once the pending check passed; the
balance credit happens only for the completed mapping and only when the
owning user row exists. -/
def processDepositCallback (db : DB) (paymentReference : String)
    (status : String) : Except String (Bool × DB) :=
  match db.deposits.find? (fun d => d.payment_reference == paymentReference) with
  | none => .error "Deposit not found"
  | some deposit =>
    if deposit.status ≠ .pending then .error "Deposit already processed" else
    let depositStatus := mapGatewayStatus status
    let db1 : DB :=
      { db with
          deposits := db.deposits.map (fun d =>
            if d.id == deposit.id then { d with status := depositStatus } else d) }
    let db2 : DB :=
      if depositStatus = .completed then
        match findUser db1 deposit.user_id with
        | some _ =>
          updateUser db1 deposit.user_id
            (fun u => { u with wallet_balance := u.wallet_balance + deposit.amount })
        | none => db1
      else db1
    .ok (true, db2)

/-- EXCHANGE_RATE constant of the coin handler: 0.1 balance units per coin,
an exact decimal in the model. -/
def EXCHANGE_RATE : Rat := 1 / 10

/-- MINIMUM_COINS constant of the coin handler. -/
def MINIMUM_COINS : Int := 100

/-- exchangeCoinsToBalance in the coin handler source (src/unnamed/part_006
lines 9-68). -/
def exchangeCoinsToBalance (db : DB) (userId : Nat) (coins : Int) :
    Except String (CoinExchange × DB) :=
  if coins < MINIMUM_COINS then
    .error "Minimum 100 coins required for exchange" else
  match findUser db userId with
  | none => .error "User not found"
  | some user =>
    if user.coins < coins then .error "Insufficient coins" else
    let balanceReceived := (coins : Rat) * EXCHANGE_RATE
    let newCoins := user.coins - coins
    let newBalance := user.wallet_balance + balanceReceived
    let db1 := updateUser db userId
      (fun u => { u with coins := newCoins, wallet_balance := newBalance })
    let exchange : CoinExchange :=
      { id := db.nextCoinExchangeId
        user_id := userId
        coins_used := coins
        balance_received := balanceReceived
        exchange_rate := EXCHANGE_RATE }
    let db2 : DB :=
      { db1 with
          coinExchanges := db1.coinExchanges ++ [exchange]
          nextCoinExchangeId := db.nextCoinExchangeId + 1 }
    .ok (exchange, db2)

/-- addCoinsToUser in the coin handler source (src/unnamed/part_006
lines 96-129). -/
def addCoinsToUser (db : DB) (userId : Nat) (coins : Int) :
    Except String (Bool × DB) :=
  if coins ≤ 0 then .error "Coins must be positive" else
  match findUser db userId with
  | none => .error "User not found"
  | some user =>
    let db1 := updateUser db userId
      (fun u => { u with coins := user.coins + coins })
    .ok (true, db1)

/-- One ledger operation with its request payload. -/
inductive Op where
  | opCreateTransaction (userId productId : Nat) (targetNumber : String)
  | opCreateDeposit (userId : Nat) (amount : Rat) (method : DepositMethod) (now : Nat)
  | opProcessDepositCallback (paymentReference status : String)
  | opCreateTransfer (fromUserId : Nat) (toUserEmail : String) (amount : Rat)
  | opCreateWithdrawal (userId : Nat) (amount : Rat) (bankName accountNumber accountName : String)
  | opUpdateTransactionStatus (transactionId : Nat) (status : String) (providerTransactionId : Option String)
  | opExchangeCoins (userId : Nat) (coins : Int)
  | opAddCoins (userId : Nat) (coins : Int)
deriving DecidableEq

/-- The state a handler call leaves behind: the new state when the enclosing
database transaction commits, the unchanged state when the handler throws
(all-or-nothing). -/
def stepDB {α : Type} (db : DB) (r : Except String (α × DB)) : DB :=
  match r with
  | .ok (_, db1) => db1
  | .error _ => db

/-- Run one operation against the store. -/
def applyOp (db : DB) (op : Op) : DB :=
  match op with
  | .opCreateTransaction userId productId t => stepDB db (createTransaction db userId productId t)
  | .opCreateDeposit userId amount method now => stepDB db (createDeposit db userId amount method now)
  | .opProcessDepositCallback ref status => stepDB db (processDepositCallback db ref status)
  | .opCreateTransfer fromUserId toEmail amount => stepDB db (createTransfer db fromUserId toEmail amount)
  | .opCreateWithdrawal userId amount b an acc => stepDB db (createWithdrawal db userId amount b an acc)
  | .opUpdateTransactionStatus txId status pid => stepDB db (updateTransactionStatus db txId status pid)
  | .opExchangeCoins userId coins => stepDB db (exchangeCoinsToBalance db userId coins)
  | .opAddCoins userId coins => stepDB db (addCoinsToUser db userId coins)

/-- The zod input validation applied at the API boundary before a handler
runs: deposit, transfer and withdrawal amounts are z.number().positive(). -/
def ValidOp : Op → Prop
  | .opCreateDeposit _ amount _ _ => 0 < amount
  | .opCreateTransfer _ _ amount => 0 < amount
  | .opCreateWithdrawal _ amount _ _ _ => 0 < amount
  | _ => True

instance : DecidablePred ValidOp := fun op => by
  cases op <;> unfold ValidOp <;> infer_instance

/-- Every account has a non-negative balance and coin count. -/
def UsersOk (l : List User) : Prop :=
  ∀ u ∈ l, 0 ≤ u.wallet_balance ∧ 0 ≤ u.coins

/-- Every catalog price is non-negative (product creation validates
price as z.number().positive()). -/
def ProductsOk (l : List Product) : Prop :=
  ∀ p ∈ l, 0 ≤ p.price

/-- Every transaction row carries a non-negative amount and coin award. -/
def TxsOk (l : List Transaction) : Prop :=
  ∀ t ∈ l, 0 ≤ t.amount ∧ 0 ≤ t.coins_earned

/-- Every deposit row carries a non-negative amount. -/
def DepositsOk (l : List Deposit) : Prop :=
  ∀ d ∈ l, 0 ≤ d.amount

/-- The ledger invariant. -/
def WF (db : DB) : Prop :=
  UsersOk db.users ∧ ProductsOk db.products ∧ TxsOk db.transactions ∧
    DepositsOk db.deposits

instance (l : List User) : Decidable (UsersOk l) := by
  unfold UsersOk; exact List.decidableBAll _ l

instance (l : List Product) : Decidable (ProductsOk l) := by
  unfold ProductsOk; exact List.decidableBAll _ l

instance (l : List Transaction) : Decidable (TxsOk l) := by
  unfold TxsOk; exact List.decidableBAll _ l

instance (l : List Deposit) : Decidable (DepositsOk l) := by
  unfold DepositsOk; exact List.decidableBAll _ l

instance (db : DB) : Decidable (WF db) := by
  unfold WF; infer_instance

instance {e a : Type} [DecidableEq e] [DecidableEq a] : DecidableEq (Except e a) :=
  fun x y =>
    match x, y with
    | .error v, .error w =>
      if h : v = w then .isTrue (by rw [h])
      else .isFalse (fun hc => h (Except.error.inj hc))
    | .ok v, .ok w =>
      if h : v = w then .isTrue (by rw [h])
      else .isFalse (fun hc => h (Except.ok.inj hc))
    | .error _, .ok _ => .isFalse (fun hc => Except.noConfusion hc)
    | .ok _, .error _ => .isFalse (fun hc => Except.noConfusion hc)

/-- Empty store shared shape for concrete test fixtures. -/
def emptyDB : DB :=
  { users := []
    products := []
    transactions := []
    deposits := []
    transfers := []
    withdrawals := []
    coinExchanges := []
    nextTransactionId := 1
    nextDepositId := 1
    nextTransferId := 1
    nextWithdrawalId := 1
    nextCoinExchangeId := 1 }

def c1user : User :=
  { id := 1
    email := "a@x.com"
    kyc_status := .verified
    wallet_balance := 100
    coins := 500
    is_blocked := false }

def c1prod : Product := { id := 2, price := 20, is_active := true }

def c1db : DB := { emptyDB with users := [c1user], products := [c1prod] }

def c1ops : List Op :=
  [.opCreateTransaction 1 2 "0812",
   .opExchangeCoins 1 200,
   .opCreateDeposit 1 50 .bank_transfer 7,
   .opProcessDepositCallback "PAY_1_7" "success",
   .opUpdateTransactionStatus 1 "failed" none,
   .opAddCoins 1 5]

def c2user : User :=
  { id := 1
    email := "a@x.com"
    kyc_status := .not_submitted
    wallet_balance := 100
    coins := 0
    is_blocked := false }

def c2dep : Deposit :=
  { id := 1
    user_id := 1
    amount := 50
    method := .bank_transfer
    status := .pending
    payment_reference := "PAY_1_7" }

def c2db : DB :=
  { emptyDB with users := [c2user], deposits := [c2dep], nextDepositId := 2 }

def c3user : User :=
  { id := 1
    email := "u@x.com"
    kyc_status := .verified
    wallet_balance := 50
    coins := 10
    is_blocked := false }

def c3tx : Transaction :=
  { id := 7
    user_id := 1
    product_id := 2
    target_number := "0812"
    amount := 20
    coins_earned := 3
    status := .completed
    provider_transaction_id := none }

def c3db : DB :=
  { emptyDB with users := [c3user], transactions := [c3tx], nextTransactionId := 8 }

def c3dbAfter : DB :=
  { emptyDB with
      users := [{ c3user with coins := 13 }]
      transactions := [c3tx]
      nextTransactionId := 8 }

def c4user : User :=
  { id := 1
    email := "a@x.com"
    kyc_status := .verified
    wallet_balance := 100
    coins := 0
    is_blocked := false }

def c4prod : Product := { id := 2, price := 20, is_active := true }

def c4db : DB := { emptyDB with users := [c4user], products := [c4prod] }

def c5user : User :=
  { id := 1
    email := "a@x.com"
    kyc_status := .verified
    wallet_balance := 250
    coins := 0
    is_blocked := false }

def c5prod : Product := { id := 3, price := 150, is_active := true }

def c5db : DB := { emptyDB with users := [c5user], products := [c5prod] }

def c6user : User :=
  { id := 1
    email := "a@x.com"
    kyc_status := .pending
    wallet_balance := 1000
    coins := 0
    is_blocked := false }

def c6db : DB := { emptyDB with users := [c6user] }

def c6ceUser : User :=
  { id := 1
    email := "a@x.com"
    kyc_status := .pending
    wallet_balance := 1000
    coins := 0
    is_blocked := true }

def c6ceDb : DB := { emptyDB with users := [c6ceUser] }

def c7user : User :=
  { id := 1
    email := "a@x.com"
    kyc_status := .verified
    wallet_balance := 100
    coins := 500
    is_blocked := false }

def c7db : DB := { emptyDB with users := [c7user] }

def c8userA : User :=
  { id := 1
    email := "a@x.com"
    kyc_status := .verified
    wallet_balance := 100
    coins := 0
    is_blocked := false }

def c8userB : User :=
  { id := 2
    email := "b@x.com"
    kyc_status := .verified
    wallet_balance := 50
    coins := 0
    is_blocked := false }

def c8db : DB := { emptyDB with users := [c8userA, c8userB] }

def c8dep : Deposit :=
  { id := 1
    user_id := 1
    amount := 50
    method := .bank_transfer
    status := .pending
    payment_reference := "PAY_1_9" }

def c8db1 : DB := { c8db with deposits := [c8dep], nextDepositId := 2 }

def c9user : User :=
  { id := 1
    email := "a@x.com"
    kyc_status := .verified
    wallet_balance := 0
    coins := 0
    is_blocked := false }

def c9db : DB := { emptyDB with users := [c9user] }

def c9d1 : Deposit :=
  { id := 1
    user_id := 1
    amount := 50
    method := .bank_transfer
    status := .pending
    payment_reference := "PAY_1_5" }

def c9db1 : DB := { c9db with deposits := [c9d1], nextDepositId := 2 }

def c9d2 : Deposit :=
  { id := 2
    user_id := 1
    amount := 70
    method := .bank_transfer
    status := .pending
    payment_reference := "PAY_1_5" }

def c9db2 : DB := { c9db with deposits := [c9d1, c9d2], nextDepositId := 3 }

def c9wuser : User :=
  { id := 3
    email := "w@x.com"
    kyc_status := .verified
    wallet_balance := 0
    coins := 0
    is_blocked := false }

def c9wdb : DB := { emptyDB with users := [c9wuser] }

def c9wd : Deposit :=
  { id := 1
    user_id := 3
    amount := 40
    method := .e_wallet
    status := .pending
    payment_reference := "PAY_3_11" }

def c9wdb1 : DB := { c9wdb with deposits := [c9wd], nextDepositId := 2 }

def c9cd : Deposit :=
  { id := 1
    user_id := 3
    amount := 40
    method := .e_wallet
    status := .completed
    payment_reference := "PAY_3_11" }

def c9cdb : DB := { emptyDB with users := [c9wuser], deposits := [c9cd], nextDepositId := 2 }

def c10tx : Transaction :=
  { id := 7
    user_id := 2
    product_id := 1
    target_number := "0812"
    amount := 5
    coins_earned := 0
    status := .pending
    provider_transaction_id := none }

def c10db : DB := { emptyDB with transactions := [c10tx], nextTransactionId := 8 }

theorem usersOk_update {l : List User} {userId : Nat} {f : User → User}
    (h : UsersOk l)
    (hf : ∀ u ∈ l, 0 ≤ (f u).wallet_balance ∧ 0 ≤ (f u).coins) :
    UsersOk (l.map (fun u => if u.id == userId then f u else u)) := by
  intro u hu
  obtain ⟨v, hv, rfl⟩ := List.mem_map.mp hu
  cases hid : (v.id == userId) with
  | true => simpa [hid] using hf v hv
  | false => simpa [hid] using h v hv

theorem usersOk_addCoins {l : List User} {i : Nat} {c : Int} (hu : UsersOk l)
    (hc : 0 ≤ c) :
    UsersOk (l.map (fun u => if u.id == i then { u with coins := u.coins + c } else u)) :=
  usersOk_update hu (fun u hm => ⟨(hu u hm).1, add_nonneg (hu u hm).2 hc⟩)

theorem usersOk_addBalance {l : List User} {i : Nat} {c : Rat} (hu : UsersOk l)
    (hc : 0 ≤ c) :
    UsersOk (l.map (fun u =>
      if u.id == i then { u with wallet_balance := u.wallet_balance + c } else u)) :=
  usersOk_update hu (fun u hm => ⟨add_nonneg (hu u hm).1 hc, (hu u hm).2⟩)

theorem txsOk_statusMap {l : List Transaction} {txId : Nat} {st : MStatus}
    {pid : Option String} (h : TxsOk l) :
    TxsOk (l.map (fun t =>
      if t.id == txId then { t with status := st, provider_transaction_id := pid }
      else t)) := by
  intro t hm
  obtain ⟨v, hv, rfl⟩ := List.mem_map.mp hm
  cases hid : (v.id == txId) <;> simpa [hid] using h v hv

theorem depositsOk_statusMap {l : List Deposit} {dId : Nat} {st : MStatus}
    (h : DepositsOk l) :
    DepositsOk (l.map (fun d => if d.id == dId then { d with status := st } else d)) := by
  intro d hm
  obtain ⟨v, hv, rfl⟩ := List.mem_map.mp hm
  cases hid : (v.id == dId) <;> simpa [hid] using h v hv

theorem applyTxSideEffects_users {db : DB} {t : Transaction} {status : String}
    (hu : UsersOk db.users) (ha : 0 ≤ t.amount) (hc : 0 ≤ t.coins_earned) :
    UsersOk (applyTxSideEffects db t status).users := by
  unfold applyTxSideEffects updateUser
  split
  · split
    · exact usersOk_addBalance (usersOk_addCoins hu hc) ha
    · exact usersOk_addCoins hu hc
  · split
    · exact usersOk_addBalance hu ha
    · exact hu

theorem applyTxSideEffects_products {db : DB} {t : Transaction} {status : String} :
    (applyTxSideEffects db t status).products = db.products := by
  unfold applyTxSideEffects updateUser
  split <;> split <;> rfl

theorem applyTxSideEffects_transactions {db : DB} {t : Transaction} {status : String} :
    (applyTxSideEffects db t status).transactions = db.transactions := by
  unfold applyTxSideEffects updateUser
  split <;> split <;> rfl

theorem applyTxSideEffects_deposits {db : DB} {t : Transaction} {status : String} :
    (applyTxSideEffects db t status).deposits = db.deposits := by
  unfold applyTxSideEffects updateUser
  split <;> split <;> rfl

theorem wf_updateTransactionStatus (db : DB) (txId : Nat) (status : String)
    (pid : Option String) (hwf : WF db) :
    WF (stepDB db (updateTransactionStatus db txId status pid)) := by
  obtain ⟨hu, hp, ht, hd⟩ := hwf
  unfold updateTransactionStatus
  cases hfe : db.transactions.find? (fun t => t.id == txId) with
  | none => exact ⟨hu, hp, ht, hd⟩
  | some existing =>
    simp only []
    cases hps : parseStatus status with
    | none => exact ⟨hu, hp, ht, hd⟩
    | some st =>
      simp only [stepDB]
      have hex := ht existing (List.mem_of_find?_eq_some hfe)
      refine ⟨?_, ?_, ?_, ?_⟩
      · exact applyTxSideEffects_users hu hex.1 hex.2
      · rw [applyTxSideEffects_products]; exact hp
      · rw [applyTxSideEffects_transactions]; exact txsOk_statusMap ht
      · rw [applyTxSideEffects_deposits]; exact hd

theorem wf_createTransaction (db : DB) (userId productId : Nat) (tn : String)
    (hwf : WF db) : WF (stepDB db (createTransaction db userId productId tn)) := by
  obtain ⟨hu, hp, ht, hd⟩ := hwf
  unfold createTransaction
  cases hfu : findUser db userId with
  | none => exact ⟨hu, hp, ht, hd⟩
  | some user =>
    simp only []
    split
    · exact ⟨hu, hp, ht, hd⟩
    · cases hfp : findProduct db productId with
      | none => exact ⟨hu, hp, ht, hd⟩
      | some product =>
        simp only []
        split
        · exact ⟨hu, hp, ht, hd⟩
        · split
          · exact ⟨hu, hp, ht, hd⟩
          · rename_i hblk hact hbal
            have hprice : 0 ≤ product.price :=
              hp product (List.mem_of_find?_eq_some hfp)
            have hble : product.price ≤ user.wallet_balance := le_of_not_lt hbal
            refine ⟨?_, hp, ?_, hd⟩
            · apply usersOk_update hu
              intro u hmem
              exact ⟨by simpa using sub_nonneg.mpr hble, (hu u hmem).2⟩
            · intro t hm
              rcases List.mem_append.mp hm with hm | hm
              · exact ht t hm
              · rcases List.mem_singleton.mp hm with rfl
                refine ⟨hprice, ?_⟩
                simp only [jsFloor]
                exact Int.floor_nonneg.mpr (by positivity)

theorem wf_createDeposit (db : DB) (userId : Nat) (amount : Rat)
    (method : DepositMethod) (now : Nat) (hamt : 0 ≤ amount) (hwf : WF db) :
    WF (stepDB db (createDeposit db userId amount method now)) := by
  obtain ⟨hu, hp, ht, hd⟩ := hwf
  unfold createDeposit
  cases hfu : findUser db userId with
  | none => exact ⟨hu, hp, ht, hd⟩
  | some user =>
    refine ⟨hu, hp, ht, ?_⟩
    intro d hm
    rcases List.mem_append.mp hm with hm | hm
    · exact hd d hm
    · rcases List.mem_singleton.mp hm with rfl
      exact hamt

theorem wf_createTransfer (db : DB) (fromUserId : Nat) (toEmail : String)
    (amount : Rat) (hwf : WF db) :
    WF (stepDB db (createTransfer db fromUserId toEmail amount)) := by
  obtain ⟨hu, hp, ht, hd⟩ := hwf
  unfold createTransfer
  cases hfu : findUser db fromUserId with
  | none => exact ⟨hu, hp, ht, hd⟩
  | some sender =>
    simp only []
    split
    · exact ⟨hu, hp, ht, hd⟩
    · split
      · exact ⟨hu, hp, ht, hd⟩
      · split
        · exact ⟨hu, hp, ht, hd⟩
        · cases hfr : findUserByEmail db toEmail with
          | none => exact ⟨hu, hp, ht, hd⟩
          | some recipient =>
            simp only []
            split
            · exact ⟨hu, hp, ht, hd⟩
            · split
              · exact ⟨hu, hp, ht, hd⟩
              · exact ⟨hu, hp, ht, hd⟩

theorem wf_createWithdrawal (db : DB) (userId : Nat) (amount : Rat)
    (b an acc : String) (hwf : WF db) :
    WF (stepDB db (createWithdrawal db userId amount b an acc)) := by
  obtain ⟨hu, hp, ht, hd⟩ := hwf
  unfold createWithdrawal
  cases hfu : findUser db userId with
  | none => exact ⟨hu, hp, ht, hd⟩
  | some user =>
    simp only []
    split
    · exact ⟨hu, hp, ht, hd⟩
    · split
      · exact ⟨hu, hp, ht, hd⟩
      · split
        · exact ⟨hu, hp, ht, hd⟩
        · exact ⟨hu, hp, ht, hd⟩

theorem wf_processDepositCallback (db : DB) (ref status : String) (hwf : WF db) :
    WF (stepDB db (processDepositCallback db ref status)) := by
  obtain ⟨hu, hp, ht, hd⟩ := hwf
  unfold processDepositCallback
  cases hfd : db.deposits.find? (fun d => d.payment_reference == ref) with
  | none => exact ⟨hu, hp, ht, hd⟩
  | some deposit =>
    simp only []
    split
    · exact ⟨hu, hp, ht, hd⟩
    · have hdep : 0 ≤ deposit.amount := hd deposit (List.mem_of_find?_eq_some hfd)
      have hd1 : DepositsOk (db.deposits.map (fun d =>
          if d.id == deposit.id then { d with status := mapGatewayStatus status } else d)) :=
        depositsOk_statusMap hd
      split
      · cases hfu : findUser { db with deposits := db.deposits.map (fun d =>
            if d.id == deposit.id then { d with status := mapGatewayStatus status } else d) }
            deposit.user_id with
        | none => exact ⟨hu, hp, ht, hd1⟩
        | some owner =>
          refine ⟨?_, hp, ht, hd1⟩
          apply usersOk_update hu
          intro u hm
          exact ⟨add_nonneg (hu u hm).1 hdep, (hu u hm).2⟩
      · exact ⟨hu, hp, ht, hd1⟩

theorem wf_exchangeCoins (db : DB) (userId : Nat) (coins : Int) (hwf : WF db) :
    WF (stepDB db (exchangeCoinsToBalance db userId coins)) := by
  obtain ⟨hu, hp, ht, hd⟩ := hwf
  unfold exchangeCoinsToBalance
  split
  · exact ⟨hu, hp, ht, hd⟩
  · rename_i hmin
    cases hfu : findUser db userId with
    | none => exact ⟨hu, hp, ht, hd⟩
    | some user =>
      simp only []
      split
      · exact ⟨hu, hp, ht, hd⟩
      · rename_i hcl
        have hc0 : (0:Int) ≤ coins :=
          le_trans (by norm_num [MINIMUM_COINS]) (not_lt.mp hmin)
        have humem := hu user (List.mem_of_find?_eq_some hfu)
        refine ⟨?_, hp, ht, hd⟩
        apply usersOk_update hu
        intro u hm
        constructor
        · exact add_nonneg humem.1
            (mul_nonneg (by exact_mod_cast hc0) (by norm_num [EXCHANGE_RATE]))
        · simpa using sub_nonneg.mpr (not_lt.mp hcl)

theorem wf_addCoins (db : DB) (userId : Nat) (coins : Int) (hwf : WF db) :
    WF (stepDB db (addCoinsToUser db userId coins)) := by
  obtain ⟨hu, hp, ht, hd⟩ := hwf
  unfold addCoinsToUser
  split
  · exact ⟨hu, hp, ht, hd⟩
  · rename_i hpos
    cases hfu : findUser db userId with
    | none => exact ⟨hu, hp, ht, hd⟩
    | some user =>
      have humem := hu user (List.mem_of_find?_eq_some hfu)
      refine ⟨?_, hp, ht, hd⟩
      apply usersOk_update hu
      intro u hm
      exact ⟨(hu u hm).1, add_nonneg humem.2 (le_of_lt (lt_of_not_le hpos))⟩

theorem wf_applyOp (db : DB) (op : Op) (hwf : WF db) (hv : ValidOp op) :
    WF (applyOp db op) := by
  cases op with
  | opCreateTransaction userId productId tn =>
      exact wf_createTransaction db userId productId tn hwf
  | opCreateDeposit userId amount method now =>
      exact wf_createDeposit db userId amount method now (le_of_lt hv) hwf
  | opProcessDepositCallback ref status =>
      exact wf_processDepositCallback db ref status hwf
  | opCreateTransfer f t a => exact wf_createTransfer db f t a hwf
  | opCreateWithdrawal u a b an acc => exact wf_createWithdrawal db u a b an acc hwf
  | opUpdateTransactionStatus txId status pid =>
      exact wf_updateTransactionStatus db txId status pid hwf
  | opExchangeCoins userId coins => exact wf_exchangeCoins db userId coins hwf
  | opAddCoins userId coins => exact wf_addCoins db userId coins hwf

theorem wf_foldl (db : DB) (ops : List Op) (hwf : WF db)
    (hops : ∀ op ∈ ops, ValidOp op) : WF (ops.foldl applyOp db) := by
  induction ops generalizing db with
  | nil => exact hwf
  | cons op ops ih =>
      exact ih (applyOp db op) (wf_applyOp db op hwf (hops op (by simp)))
        (fun o hm => hops o (by simp [hm]))

/-- C1: starting from a well-formed store, after any prefix of any sequence
of (zod-validated) ledger operations has committed, every account still has
wallet_balance >= 0 and coins >= 0. -/
theorem C1_balance_and_coins_nonneg (db : DB) (ops : List Op) (n : Nat)
    (hwf : WF db) (hops : ∀ op ∈ ops, ValidOp op) :
    ∀ u ∈ ((ops.take n).foldl applyOp db).users,
      0 ≤ u.wallet_balance ∧ 0 ≤ u.coins :=
  (wf_foldl db (ops.take n) hwf (fun o hm => hops o (List.mem_of_mem_take hm))).1

theorem find?_map_stable {α : Type} (l : List α) (p : α → Bool) (f : α → α)
    (hp : ∀ x, p (f x) = p x) :
    (l.map f).find? p = (l.find? p).map f := by
  induction l with
  | nil => rfl
  | cons a l ih =>
    simp only [List.map_cons, List.find?]
    rw [hp a]
    cases hpa : p a
    · simpa [hpa] using ih
    · simp [hpa]

theorem find?_append_of_left_none {α : Type} (l1 l2 : List α) (p : α → Bool)
    (h : ∀ x ∈ l1, p x = false) :
    (l1 ++ l2).find? p = l2.find? p := by
  induction l1 with
  | nil => rfl
  | cons a l ih =>
    have ha : p a = false := h a (by simp)
    simp only [List.cons_append, List.find?, ha]
    exact ih (fun x hm => h x (by simp [hm]))

theorem findUser_updateUser_self (db : DB) (i : Nat) (f : User → User)
    (hid : ∀ u, (f u).id = u.id) (user : User) (hfu : findUser db i = some user) :
    findUser (updateUser db i f) i = some (f user) := by
  unfold findUser updateUser at *
  rw [find?_map_stable]
  · rw [hfu]
    have hpu := List.find?_some hfu
    simp only [] at hpu
    have heq : user.id = i := by simpa using hpu
    simp [heq]
  · intro x
    cases hx : (x.id == i) <;> simp [hx, hid]

theorem createTransaction_ok (db : DB) (userId productId : Nat) (tn : String)
    (user : User) (product : Product)
    (hfu : findUser db userId = some user)
    (hblk : user.is_blocked = false)
    (hfp : findProduct db productId = some product)
    (hact : product.is_active = true)
    (hbal : product.price ≤ user.wallet_balance) :
    createTransaction db userId productId tn =
      .ok ({ id := db.nextTransactionId, user_id := userId, product_id := productId,
             target_number := tn, amount := product.price,
             coins_earned := jsFloor (product.price / 100), status := .pending,
             provider_transaction_id := none },
           updateUser
             { db with
                 transactions := db.transactions ++
                   [{ id := db.nextTransactionId, user_id := userId,
                      product_id := productId, target_number := tn,
                      amount := product.price,
                      coins_earned := jsFloor (product.price / 100),
                      status := .pending, provider_transaction_id := none }]
                 nextTransactionId := db.nextTransactionId + 1 }
             userId
             (fun u => { u with wallet_balance := user.wallet_balance - product.price })) := by
  unfold createTransaction
  rw [hfu, hfp]
  simp only [hblk, hact, Bool.not_true, if_false, Bool.false_eq_true]
  rw [if_neg (not_lt.mpr hbal)]

theorem createTransaction_spec (db : DB) (userId productId : Nat) (tn : String)
    (user : User) (product : Product)
    (hfu : findUser db userId = some user)
    (hblk : user.is_blocked = false)
    (hfp : findProduct db productId = some product)
    (hact : product.is_active = true)
    (hbal : product.price ≤ user.wallet_balance) :
    ∃ tx db2, createTransaction db userId productId tn = .ok (tx, db2) ∧
      tx.id = db.nextTransactionId ∧ tx.user_id = userId ∧ tx.status = .pending ∧
      tx.amount = product.price ∧ tx.coins_earned = jsFloor (product.price / 100) ∧
      db2.transactions = db.transactions ++ [tx] ∧
      findUser db2 userId =
        some { user with wallet_balance := user.wallet_balance - product.price } := by
  refine ⟨_, _, createTransaction_ok db userId productId tn user product
    hfu hblk hfp hact hbal, rfl, rfl, rfl, rfl, rfl, rfl, ?_⟩
  apply findUser_updateUser_self
  · exact fun u => rfl
  · exact hfu

/-- C5: with an existing, unblocked user of sufficient balance and an
existing active product, createTransaction returns a pending transaction
with coins_earned = floor(price / 100), appends it to the transactions
table, and debits the wallet by exactly the product price. -/
theorem C5_createTransaction_functional (db : DB) (userId productId : Nat)
    (tn : String) (user : User) (product : Product)
    (hfu : findUser db userId = some user)
    (hblk : user.is_blocked = false)
    (hfp : findProduct db productId = some product)
    (hact : product.is_active = true)
    (hbal : product.price ≤ user.wallet_balance) :
    ∃ tx db2, createTransaction db userId productId tn = .ok (tx, db2) ∧
      tx.status = .pending ∧ tx.coins_earned = jsFloor (product.price / 100) ∧
      tx.amount = product.price ∧ tx.user_id = userId ∧
      db2.transactions = db.transactions ++ [tx] ∧
      findUser db2 userId =
        some { user with wallet_balance := user.wallet_balance - product.price } := by
  obtain ⟨tx, db2, heq, hid, huid, hst, hamt, hce, htr, hfu2⟩ :=
    createTransaction_spec db userId productId tn user product hfu hblk hfp hact hbal
  exact ⟨tx, db2, heq, hst, hce, hamt, huid, htr, hfu2⟩

theorem updateTransactionStatus_failed_ok (db : DB) (txId : Nat) (tx : Transaction)
    (hfind : db.transactions.find? (fun t => t.id == txId) = some tx) :
    updateTransactionStatus db txId "failed" none =
      .ok ({ tx with status := .failed },
        updateUser
          { db with transactions := db.transactions.map (fun t =>
              if t.id == txId then
                { t with
                    status := .failed
                    provider_transaction_id := tx.provider_transaction_id }
              else t) }
          tx.user_id
          (fun u => { u with wallet_balance := u.wallet_balance + tx.amount })) := by
  unfold updateTransactionStatus
  rw [hfind]
  rfl

/-- C4: a purchase followed by marking that transaction failed restores the
buyer's wallet balance exactly: creation debits the product price and the
failed transition credits back the same amount. -/
theorem C4_purchase_fail_roundtrip (db : DB) (userId productId : Nat)
    (tn : String) (user : User) (product : Product)
    (hfu : findUser db userId = some user)
    (hblk : user.is_blocked = false)
    (hfp : findProduct db productId = some product)
    (hact : product.is_active = true)
    (hbal : product.price ≤ user.wallet_balance)
    (hfresh : ∀ t ∈ db.transactions, (t.id == db.nextTransactionId) = false) :
    ∃ tx db2 tx2 db3,
      createTransaction db userId productId tn = .ok (tx, db2) ∧
      tx.amount = product.price ∧
      (findUser db2 userId).map User.wallet_balance =
        some (user.wallet_balance - product.price) ∧
      updateTransactionStatus db2 tx.id "failed" none = .ok (tx2, db3) ∧
      tx2.amount = product.price ∧
      (findUser db3 userId).map User.wallet_balance = some user.wallet_balance := by
  obtain ⟨tx, db2, heq, hid, huid, hst, hamt, hce, htr, hfu2⟩ :=
    createTransaction_spec db userId productId tn user product hfu hblk hfp hact hbal
  have hfind2 : db2.transactions.find? (fun t => t.id == tx.id) = some tx := by
    rw [htr, find?_append_of_left_none]
    · simp [List.find?]
    · intro t hm
      rw [hid]
      exact hfresh t hm
  have hupd := updateTransactionStatus_failed_ok db2 tx.id tx hfind2
  refine ⟨tx, db2, _, _, heq, hamt, ?_, hupd, hamt, ?_⟩
  · rw [hfu2]; rfl
  · have hfu3 : findUser { db2 with transactions := db2.transactions.map (fun t =>
        if t.id == tx.id then
          { t with
              status := .failed
              provider_transaction_id := tx.provider_transaction_id }
        else t) } userId =
        some { user with wallet_balance := user.wallet_balance - product.price } := hfu2
    rw [huid]
    have h4 := findUser_updateUser_self _ userId
      (fun u => { u with wallet_balance := u.wallet_balance + tx.amount })
      (fun u => rfl) _ hfu3
    rw [h4]
    simp only [Option.map_some']
    rw [hamt]
    congr 1
    exact sub_add_cancel _ _

/-- C2: a success callback on a pending deposit completes it and credits the
owner exactly once; replaying the identical callback fails with the
already-processed error and, since the handler throws before any write, the
committed state is unchanged. -/
theorem C2_deposit_callback_applied_once (db : DB) (ref : String) (d : Deposit)
    (owner : User)
    (hfd : db.deposits.find? (fun x => x.payment_reference == ref) = some d)
    (hpend : d.status = .pending)
    (hfu : findUser db d.user_id = some owner) :
    ∃ db2,
      processDepositCallback db ref "success" = .ok (true, db2) ∧
      db2.deposits.find? (fun x => x.payment_reference == ref) =
        some { d with status := .completed } ∧
      findUser db2 d.user_id =
        some { owner with wallet_balance := owner.wallet_balance + d.amount } ∧
      processDepositCallback db2 ref "success" = .error "Deposit already processed" := by
  have hmg : mapGatewayStatus "success" = MStatus.completed := rfl
  have hp : ∀ x : Deposit,
      ((if x.id == d.id then { x with status := MStatus.completed } else x).payment_reference
        == ref) = (x.payment_reference == ref) := by
    intro x; cases hx : (x.id == d.id) <;> simp [hx]
  have hdep2 : (db.deposits.map (fun x =>
        if x.id == d.id then { x with status := MStatus.completed } else x)).find?
        (fun x => x.payment_reference == ref) = some { d with status := MStatus.completed } := by
    rw [find?_map_stable _ _ _ hp, hfd]
    simp
  have hfu1 : findUser { db with deposits := db.deposits.map (fun x =>
      if x.id == d.id then { x with status := MStatus.completed } else x) } d.user_id =
      some owner := hfu
  have hcall : processDepositCallback db ref "success" = .ok (true,
      updateUser { db with deposits := db.deposits.map (fun x =>
        if x.id == d.id then { x with status := MStatus.completed } else x) } d.user_id
      (fun u => { u with wallet_balance := u.wallet_balance + d.amount })) := by
    unfold processDepositCallback
    rw [hfd]
    simp only []
    rw [hpend, hmg, hfu1]
    rfl
  have hdep3 : (updateUser { db with deposits := db.deposits.map (fun x =>
      if x.id == d.id then { x with status := MStatus.completed } else x) } d.user_id
      (fun u => { u with wallet_balance := u.wallet_balance + d.amount })).deposits.find?
      (fun x => x.payment_reference == ref) = some { d with status := MStatus.completed } :=
    hdep2
  refine ⟨_, hcall, hdep2, ?_, ?_⟩
  · exact findUser_updateUser_self _ d.user_id
      (fun u => { u with wallet_balance := u.wallet_balance + d.amount })
      (fun u => rfl) owner hfu1
  · unfold processDepositCallback
    rw [hdep3]
    rfl

/-- C6 (amended): for an existing, unblocked user whose KYC status is not
verified, createTransfer and createWithdrawal fail with the KYC-required
error for every amount, in particular regardless of balance sufficiency. -/
theorem C6_kyc_gate (db : DB) (fromUserId : Nat) (toEmail : String)
    (amount amount2 : Rat) (b an acc : String) (user : User)
    (hfu : findUser db fromUserId = some user)
    (hblk : user.is_blocked = false)
    (hkyc : user.kyc_status ≠ .verified) :
    createTransfer db fromUserId toEmail amount =
      .error "KYC verification required for transfers" ∧
    createWithdrawal db fromUserId amount2 b an acc =
      .error "KYC verification required for withdrawals" := by
  constructor
  · unfold createTransfer
    rw [hfu]
    simp only []
    rw [hblk, if_pos hkyc]
    rfl
  · unfold createWithdrawal
    rw [hfu]
    simp only []
    rw [hblk, if_pos hkyc]
    rfl

/-- C7: with at least the minimum coins requested and a sufficient coin
balance, exchangeCoinsToBalance debits exactly the requested coins, credits
the wallet by coins times the 0.1 exchange rate, and stores that rate on the
inserted coin-exchange record. -/
theorem C7_exchange_math (db : DB) (userId : Nat) (coins : Int) (user : User)
    (hmin : MINIMUM_COINS ≤ coins)
    (hfu : findUser db userId = some user)
    (hcoins : coins ≤ user.coins) :
    ∃ db2, exchangeCoinsToBalance db userId coins =
      .ok ({ id := db.nextCoinExchangeId, user_id := userId, coins_used := coins,
             balance_received := (coins : Rat) * EXCHANGE_RATE,
             exchange_rate := EXCHANGE_RATE }, db2) ∧
      findUser db2 userId = some
        { user with
            coins := user.coins - coins
            wallet_balance := user.wallet_balance + (coins : Rat) * EXCHANGE_RATE } ∧
      db2.coinExchanges = db.coinExchanges ++
        [{ id := db.nextCoinExchangeId, user_id := userId, coins_used := coins,
           balance_received := (coins : Rat) * EXCHANGE_RATE,
           exchange_rate := EXCHANGE_RATE }] := by
  have hcall : exchangeCoinsToBalance db userId coins =
      .ok ({ id := db.nextCoinExchangeId, user_id := userId, coins_used := coins,
             balance_received := (coins : Rat) * EXCHANGE_RATE,
             exchange_rate := EXCHANGE_RATE },
        updateUser
          { db with
              coinExchanges := db.coinExchanges ++
                [{ id := db.nextCoinExchangeId, user_id := userId, coins_used := coins,
                   balance_received := (coins : Rat) * EXCHANGE_RATE,
                   exchange_rate := EXCHANGE_RATE }]
              nextCoinExchangeId := db.nextCoinExchangeId + 1 }
          userId
          (fun u => { u with
              coins := user.coins - coins
              wallet_balance := user.wallet_balance + (coins : Rat) * EXCHANGE_RATE })) := by
    unfold exchangeCoinsToBalance
    rw [if_neg (not_lt.mpr hmin), hfu]
    simp only []
    rw [if_neg (not_lt.mpr hcoins)]
    rfl
  refine ⟨_, hcall, ?_, rfl⟩
  exact findUser_updateUser_self _ userId
    (fun u => { u with
        coins := user.coins - coins
        wallet_balance := user.wallet_balance + (coins : Rat) * EXCHANGE_RATE })
    (fun u => rfl) user hfu

/-- C9 (amended): a created deposit's payment_reference is the string
PAY_userId_timestamp with pending status, and a callback against a
reference whose deposit row is no longer pending always fails with the
already-processed error, so a reference is consumed at most once. -/
theorem C9_payment_reference_scheme (db : DB) :
    (∀ userId amount method now d db1,
        createDeposit db userId amount method now = .ok (d, db1) →
        d.payment_reference = "PAY_" ++ toString userId ++ "_" ++ toString now ∧
        d.status = .pending) ∧
    (∀ ref status d,
        db.deposits.find? (fun x => x.payment_reference == ref) = some d →
        d.status ≠ .pending →
        processDepositCallback db ref status = .error "Deposit already processed") := by
  constructor
  · intro userId amount method now d db1 h
    unfold createDeposit at h
    cases hfu : findUser db userId with
    | none => rw [hfu] at h; exact (Except.noConfusion h)
    | some user =>
      rw [hfu] at h
      simp only [] at h
      injection h with h1
      injection h1 with h2 h3
      subst h2
      exact ⟨rfl, rfl⟩
  · intro ref status d hfd hne
    unfold processDepositCallback
    rw [hfd]
    simp only []
    rw [if_pos hne]

/-- C10: getTransactionById returns a transaction only when it exists with
the queried id and is owned by the queried user; when every row with that id
belongs to someone else the result is null. -/
theorem C10_getTransactionById_owner_scoped (db : DB) (txId userId : Nat) :
    (∀ t, getTransactionById db txId userId = some t →
      t ∈ db.transactions ∧ t.id = txId ∧ t.user_id = userId) ∧
    ((∀ t ∈ db.transactions, t.id = txId → t.user_id ≠ userId) →
      getTransactionById db txId userId = none) := by
  constructor
  · intro t h
    unfold getTransactionById at h
    have hmem := List.mem_of_find?_eq_some h
    have hp := List.find?_some h
    simp only [] at hp
    rw [Bool.and_eq_true] at hp
    refine ⟨hmem, ?_, ?_⟩
    · simpa using hp.1
    · simpa using hp.2
  · intro hall
    unfold getTransactionById
    rw [List.find?_eq_none]
    intro t hm
    simp only [Bool.and_eq_true, beq_iff_eq]
    intro hc
    exact hall t hm hc.1 hc.2

/-- C8: createDeposit, createTransfer and createWithdrawal never touch the
users table (no balance or coin mutation at creation time); on success they
only append one pending movement record to their own table. -/
theorem C8_creation_frame (db : DB) (userId fromUserId : Nat)
    (amount1 amount2 amount3 : Rat) (method : DepositMethod) (now : Nat)
    (toEmail b an acc : String) :
    (stepDB db (createDeposit db userId amount1 method now)).users = db.users ∧
    (stepDB db (createTransfer db fromUserId toEmail amount2)).users = db.users ∧
    (stepDB db (createWithdrawal db userId amount3 b an acc)).users = db.users ∧
    (∀ d db1, createDeposit db userId amount1 method now = .ok (d, db1) →
      db1.users = db.users ∧ d.status = .pending ∧
        db1.deposits = db.deposits ++ [d]) ∧
    (∀ t db1, createTransfer db fromUserId toEmail amount2 = .ok (t, db1) →
      db1.users = db.users ∧ t.status = .pending ∧
        db1.transfers = db.transfers ++ [t]) ∧
    (∀ w db1, createWithdrawal db userId amount3 b an acc = .ok (w, db1) →
      db1.users = db.users ∧ w.status = .pending ∧
        db1.withdrawals = db.withdrawals ++ [w]) := by
  have hdep : ∀ d db1, createDeposit db userId amount1 method now = .ok (d, db1) →
      db1.users = db.users ∧ d.status = .pending ∧
        db1.deposits = db.deposits ++ [d] := by
    intro d db1 h
    unfold createDeposit at h
    cases hfu : findUser db userId with
    | none => rw [hfu] at h; exact (Except.noConfusion h)
    | some user =>
      rw [hfu] at h
      simp only [] at h
      injection h with h1
      injection h1 with h2 h3
      subst h2; subst h3
      exact ⟨rfl, rfl, rfl⟩
  have htra : ∀ t db1, createTransfer db fromUserId toEmail amount2 = .ok (t, db1) →
      db1.users = db.users ∧ t.status = .pending ∧
        db1.transfers = db.transfers ++ [t] := by
    intro t db1 h
    unfold createTransfer at h
    cases hfu : findUser db fromUserId with
    | none => rw [hfu] at h; exact (Except.noConfusion h)
    | some sender =>
      rw [hfu] at h
      simp only [] at h
      split at h
      · exact (Except.noConfusion h)
      · split at h
        · exact (Except.noConfusion h)
        · split at h
          · exact (Except.noConfusion h)
          · cases hfr : findUserByEmail db toEmail with
            | none => rw [hfr] at h; exact (Except.noConfusion h)
            | some recipient =>
              rw [hfr] at h
              simp only [] at h
              split at h
              · exact (Except.noConfusion h)
              · split at h
                · exact (Except.noConfusion h)
                · injection h with h1
                  injection h1 with h2 h3
                  subst h2; subst h3
                  exact ⟨rfl, rfl, rfl⟩
  have hwit : ∀ w db1, createWithdrawal db userId amount3 b an acc = .ok (w, db1) →
      db1.users = db.users ∧ w.status = .pending ∧
        db1.withdrawals = db.withdrawals ++ [w] := by
    intro w db1 h
    unfold createWithdrawal at h
    cases hfu : findUser db userId with
    | none => rw [hfu] at h; exact (Except.noConfusion h)
    | some user =>
      rw [hfu] at h
      simp only [] at h
      split at h
      · exact (Except.noConfusion h)
      · split at h
        · exact (Except.noConfusion h)
        · split at h
          · exact (Except.noConfusion h)
          · injection h with h1
            injection h1 with h2 h3
            subst h2; subst h3
            exact ⟨rfl, rfl, rfl⟩
  refine ⟨?_, ?_, ?_, hdep, htra, hwit⟩
  · cases hr : createDeposit db userId amount1 method now with
    | error e => rfl
    | ok p => exact (hdep p.1 p.2 hr).1
  · cases hr : createTransfer db fromUserId toEmail amount2 with
    | error e => rfl
    | ok p => exact (htra p.1 p.2 hr).1
  · cases hr : createWithdrawal db userId amount3 b an acc with
    | error e => rfl
    | ok p => exact (hwit p.1 p.2 hr).1

/-- C3: evidence of the divergence — updateTransactionStatus on a
transaction that is already completed does not fail with an invalid-state
error; it succeeds and re-runs the completion side effect, awarding
coins_earned to the owner a second time (coins go from 10 to 13 even though
the transaction was already terminal). -/
theorem C3_terminal_update_not_rejected :
    updateTransactionStatus c3db 7 "completed" none = .ok (c3tx, c3dbAfter) ∧
    c3tx.status = .completed ∧
    (findUser c3db 1).map User.coins = some 10 ∧
    (findUser c3dbAfter 1).map User.coins = some 13 := by decide

/-- C6 counterexample: a blocked user whose KYC status is not verified gets
the blocked-account error, not the KYC-required error, so the claim as
stated over every non-verified user is false. -/
theorem C6_counterexample_blocked_user :
    (findUser c6ceDb 1).map User.kyc_status = some KycStatus.pending ∧
    createTransfer c6ceDb 1 "r@x.com" 5 = .error "Account is blocked" ∧
    createWithdrawal c6ceDb 1 5 "BankA" "123" "Name" = .error "Account is blocked" ∧
    "Account is blocked" ≠ "KYC verification required for transfers" ∧
    "Account is blocked" ≠ "KYC verification required for withdrawals" := by decide

/-- C9 counterexample: two deposits created by the same user with the same
Date.now() millisecond value receive identical payment references, so the
generated references are not globally unique. -/
theorem C9_counterexample_reference_collision :
    createDeposit c9db 1 50 .bank_transfer 5 = .ok (c9d1, c9db1) ∧
    createDeposit c9db1 1 70 .bank_transfer 5 = .ok (c9d2, c9db2) ∧
    c9d1.id ≠ c9d2.id ∧
    c9d1.payment_reference = c9d2.payment_reference := by decide

/-- Witness for C1 at a concrete store and operation sequence. -/
theorem C1_balance_and_coins_nonneg_witness :
    WF c1db ∧ (∀ op ∈ c1ops, ValidOp op) ∧
    UsersOk ((c1ops.take 6).foldl applyOp c1db).users :=
  ⟨by decide, by decide,
    fun u hm => C1_balance_and_coins_nonneg c1db c1ops 6 (by decide) (by decide) u hm⟩

/-- Witness for C2 on a concrete pending deposit. -/
theorem C2_deposit_callback_applied_once_witness :
    ∃ db2,
      processDepositCallback c2db "PAY_1_7" "success" = .ok (true, db2) ∧
      db2.deposits.find? (fun x => x.payment_reference == "PAY_1_7") =
        some { c2dep with status := .completed } ∧
      findUser db2 c2dep.user_id =
        some { c2user with wallet_balance := c2user.wallet_balance + c2dep.amount } ∧
      processDepositCallback db2 "PAY_1_7" "success" =
        .error "Deposit already processed" :=
  C2_deposit_callback_applied_once c2db "PAY_1_7" c2dep c2user (by decide) (by decide)
    (by decide)

/-- Witness for C4 on a concrete purchase that is then marked failed. -/
theorem C4_purchase_fail_roundtrip_witness :
    ∃ tx db2 tx2 db3,
      createTransaction c4db 1 2 "0812" = .ok (tx, db2) ∧
      tx.amount = c4prod.price ∧
      (findUser db2 1).map User.wallet_balance =
        some (c4user.wallet_balance - c4prod.price) ∧
      updateTransactionStatus db2 tx.id "failed" none = .ok (tx2, db3) ∧
      tx2.amount = c4prod.price ∧
      (findUser db3 1).map User.wallet_balance = some c4user.wallet_balance :=
  C4_purchase_fail_roundtrip c4db 1 2 "0812" c4user c4prod (by decide) (by decide)
    (by decide) (by decide) (by decide) (by decide)

/-- Witness for C5 on a concrete purchase. -/
theorem C5_createTransaction_functional_witness :
    ∃ tx db2, createTransaction c5db 1 3 "0812" = .ok (tx, db2) ∧
      tx.status = .pending ∧ tx.coins_earned = jsFloor (c5prod.price / 100) ∧
      tx.amount = c5prod.price ∧ tx.user_id = 1 ∧
      db2.transactions = c5db.transactions ++ [tx] ∧
      findUser db2 1 =
        some { c5user with wallet_balance := c5user.wallet_balance - c5prod.price } :=
  C5_createTransaction_functional c5db 1 3 "0812" c5user c5prod (by decide) (by decide)
    (by decide) (by decide) (by decide)

/-- Witness for the amended C6 on a concrete unblocked, non-verified user. -/
theorem C6_kyc_gate_witness :
    createTransfer c6db 1 "r@x.com" 5 =
      .error "KYC verification required for transfers" ∧
    createWithdrawal c6db 1 5 "BankA" "123" "Name" =
      .error "KYC verification required for withdrawals" :=
  C6_kyc_gate c6db 1 "r@x.com" 5 5 "BankA" "123" "Name" c6user (by decide) (by decide)
    (by decide)

/-- Witness for C7: exchanging 200 coins at the fixed 0.1 rate credits
exactly 20 balance units and stores the rate on the record. -/
theorem C7_exchange_math_witness :
    ((200 : Int) : Rat) * EXCHANGE_RATE = 20 ∧
    (∃ db2, exchangeCoinsToBalance c7db 1 200 =
      .ok ({ id := 1, user_id := 1, coins_used := 200,
             balance_received := ((200 : Int) : Rat) * EXCHANGE_RATE,
             exchange_rate := EXCHANGE_RATE }, db2) ∧
      findUser db2 1 = some
        { c7user with
            coins := c7user.coins - 200
            wallet_balance := c7user.wallet_balance + ((200 : Int) : Rat) * EXCHANGE_RATE } ∧
      db2.coinExchanges = c7db.coinExchanges ++
        [{ id := 1, user_id := 1, coins_used := 200,
           balance_received := ((200 : Int) : Rat) * EXCHANGE_RATE,
           exchange_rate := EXCHANGE_RATE }]) :=
  ⟨by norm_num [EXCHANGE_RATE], C7_exchange_math c7db 1 200 c7user (by decide) (by decide)
    (by decide)⟩

/-- Witness for C8 on a concrete store. -/
theorem C8_creation_frame_witness :
    (stepDB c8db (createDeposit c8db 1 50 .bank_transfer 9)).users = c8db.users ∧
    (stepDB c8db (createTransfer c8db 1 "b@x.com" 5)).users = c8db.users ∧
    (stepDB c8db (createWithdrawal c8db 1 5 "BankA" "123" "Name")).users = c8db.users ∧
    c8dep.status = .pending ∧ c8db1.deposits = c8db.deposits ++ [c8dep] := by
  obtain ⟨h1, h2, h3, h4, h5, h6⟩ :=
    C8_creation_frame c8db 1 1 50 5 5 .bank_transfer 9 "b@x.com" "BankA" "123" "Name"
  have hd := h4 c8dep c8db1 (by decide)
  exact ⟨h1, h2, h3, hd.2.1, hd.2.2⟩

/-- Witness for the amended C9: concrete reference format and a rejected
replay against an already completed deposit. -/
theorem C9_payment_reference_scheme_witness :
    ("PAY_" ++ toString 3 ++ "_" ++ toString 11 = "PAY_3_11") ∧
    c9wd.payment_reference = "PAY_" ++ toString 3 ++ "_" ++ toString 11 ∧
    c9wd.status = .pending ∧
    processDepositCallback c9cdb "PAY_3_11" "success" =
      .error "Deposit already processed" := by
  refine ⟨by decide, ?_, ?_, ?_⟩
  · exact ((C9_payment_reference_scheme c9wdb).1 3 40 .e_wallet 11 c9wd c9wdb1
      (by decide)).1
  · exact ((C9_payment_reference_scheme c9wdb).1 3 40 .e_wallet 11 c9wd c9wdb1
      (by decide)).2
  · exact (C9_payment_reference_scheme c9cdb).2 "PAY_3_11" "success" c9cd (by decide)
      (by decide)

/-- Witness for C10: a transaction owned by user 2 is invisible to user 1
and visible to its owner. -/
theorem C10_getTransactionById_owner_scoped_witness :
    getTransactionById c10db 7 1 = none ∧
    (c10tx ∈ c10db.transactions ∧ c10tx.id = 7 ∧ c10tx.user_id = 2) :=
  ⟨(C10_getTransactionById_owner_scoped c10db 7 1).2 (by decide),
   (C10_getTransactionById_owner_scoped c10db 7 2).1 c10tx (by decide)⟩

end Kasir
